import Mathlib

/-!
# Verification of the Blender reconciliation engine

Shallow embedding of `Blender.blendNode` from `src/js/lib/blender.ts`: the
recursive walker that blends a JSON tree of visual attributes with the parsed
HTML DOM into one XML output tree, logging structural divergences.

Modelling conventions:
* JSON scalar leaves: strings are `JVal.str`; numbers, booleans are
  `JVal.scalar r` carrying their string rendering (the value `cheerio`'s
  `attr` stores).  JSON `null` leaves are not modelled (no claim involves
  them and `attr(name, null)` would delete an attribute).
* `Object.entries` of a JSON object is an association list in insertion
  order; JS object keys are unique, which appears as a `Nodup` hypothesis
  where a proof needs it.
* The mutable cheerio output node is modelled functionally: `blendNode`
  receives the tag of the freshly created node and returns the completed
  node together with the list of `log.warn` diagnostics in emission order.
* The `while` loop over children is `blendChildren`, structurally recursive
  on the HTML child list (`htmlChildren.shift()` removes the head each
  iteration); the recursive `this.blendNode` call is threaded in as the
  `recurse` parameter.  `blendNode` itself carries a fuel bound on recursion
  depth, returning `none` when the fuel is exhausted; termination (claim
  C10) states that any fuel above the HTML tree's depth suffices.
-/

/-- A JSON value: string scalar, non-string scalar (number/boolean,
represented by its string rendering), or nested object in insertion order. -/
inductive JVal where
  | str (s : String)
  | scalar (r : String)
  | obj (entries : List (String × JVal))

/-- The string that `xmlNode.attr(key, value)` stores for a JSON value
(`String(value)` semantics; an object stringifies to "[object Object]"). -/
def JVal.render : JVal → String
  | .str s => s
  | .scalar r => r
  | .obj _ => "[object Object]"

/-- A character of a string as a length-one JS string. -/
def charStr (c : Char) : String := String.mk [c]

/-- `Object.entries` of a JSON value.  Objects enumerate their fields; a JS
string enumerates index/character pairs; other scalars have no entries. -/
def JVal.entriesOf : JVal → List (String × JVal)
  | .obj l => l
  | .str s => (s.data.enum).map (fun p => (Nat.repr p.1, JVal.str (charStr p.2)))
  | .scalar _ => []

/-- A node of the cheerio-parsed HTML DOM (`domhandler` node kinds that
`blendNode` distinguishes: Document, Element/Tag, Text, Comment, Directive). -/
inductive HtmlNode where
  | document (children : List HtmlNode)
  | element (tagName : String) (attribs : List (String × String)) (children : List HtmlNode)
  | text (data : String)
  | comment (data : String)
  | directive (data : String)

/-- A node of the XML output tree built in `this.result`: a tag, the ordered
attribute map, and the ordered list of appended children. -/
inductive OutNode where
  | mk (tag : String) (attrs : List (String × String)) (children : List OutNode)

/-- The attribute list of an output node. -/
def OutNode.attrsOf : OutNode → List (String × String)
  | .mk _ a _ => a

/-- The children list of an output node. -/
def OutNode.childrenOf : OutNode → List OutNode
  | .mk _ _ c => c

/-- The tag of an output node. -/
def OutNode.tagOf : OutNode → String
  | .mk t _ _ => t

/-- One `log.warn` diagnostic of `blendNode`, with the data the code logs. -/
inductive Warn where
  | unexpectedKey (xpath key : String)
  | unrecognizedElement (xpath : String)
  | unexpectedEnd (xpath : String) (anyJson anyHtml : Bool)
  | unrecognizedChild (xpath : String)
  | nonExistentChild (xpath xpathElement : String)
deriving Repr, DecidableEq

/-- Whether a string's first character is `c` — models JS
`s.startsWith(p)` for the one-character prefixes `'/'` and `'_'` used by
the code. -/
def headIs (c : Char) (s : String) : Bool :=
  match s.data with
  | [] => false
  | a :: _ => a == c

/-- `key.startsWith('/')`. -/
def startsWithSlash (s : String) : Bool := headIs '/' s

/-- `cheerio`'s `attr(key, value)` on the ordered attribute map: update in
place when the key exists, else append. -/
def setAttr : List (String × String) → String → String → List (String × String)
  | [], k, v => [(k, v)]
  | (k₀, v₀) :: rest, k, v =>
    if k₀ == k then (k₀, v) :: rest else (k₀, v₀) :: setAttr rest k v

/-- Read an attribute back from the ordered attribute map. -/
def lookupAttr (l : List (String × String)) (k : String) : Option String :=
  (l.find? (fun p => p.1 == k)).map Prod.snd

/-- `htmlCounts.get(tagName) ?? 0`. -/
def lookupCount (counts : List (String × Nat)) (k : String) : Nat :=
  match counts.find? (fun p => p.1 == k) with
  | some p => p.2
  | none => 0

/-- `htmlCounts.set(tagName, n)`. -/
def setCount : List (String × Nat) → String → Nat → List (String × Nat)
  | [], k, n => [(k, n)]
  | (k₀, n₀) :: rest, k, n =>
    if k₀ == k then (k₀, n) :: rest else (k₀, n₀) :: setCount rest k n

/-- `dataEntries.findIndex(p)` followed by `dataEntries.splice(i, 1)`:
the first entry satisfying `p`, together with the list without it. -/
def extractFirst (p : α → Bool) : List α → Option (α × List α)
  | [] => none
  | x :: xs =>
    if p x then some (x, xs)
    else (extractFirst p xs).map (fun r => (r.1, x :: r.2))

/-- The leading `while` loop of `blendNode`: shift entries while the key does
not start with `/`, dropping `whiteSpace`/`id` and storing the rest as
`_`-prefixed attributes on the node; returns the attribute map so far and
the unconsumed entries. -/
def visualPhase : List (String × JVal) → List (String × String) →
    List (String × String) × List (String × JVal)
  | [], acc => (acc, [])
  | (k, v) :: rest, acc =>
    if startsWithSlash k then (acc, (k, v) :: rest)
    else if k == "whiteSpace" || k == "id" then visualPhase rest acc
    else visualPhase rest (setAttr acc ("_" ++ k) v.render)

/-- The rename a native HTML attribute undergoes, modelling
`const key = name.startsWith('_') ? '__' + name : name` (the source's
template literal): the code prepends the two-character string `__` to any
native name already starting with `_`, so `_foo` is emitted as `___foo`. -/
def renameNative (n : String) : String :=
  if headIs '_' n then "__" ++ n else n

/-- The attribute names the HTML side of `blendNode` writes onto the output
node: `_text` for a Text node, the renamed native names for an Element. -/
def htmlAttrWrites : HtmlNode → List String
  | .text _ => ["_text"]
  | .element _ nattrs _ => nattrs.map (fun nv => renameNative nv.1)
  | _ => []

/-- The `while (true)` child loop of `blendNode`.  `recurse` is the
`this.blendNode` call on a matched pair.  Consumes the JSON child entries
and the HTML children in parallel:
* both lists empty: normal end of the level;
* exactly one empty: warn `unexpected end` and break;
* otherwise shift the next HTML child; Comment/Directive are skipped
  (a Document child would hit the `unrecognized child` warning), Text counts
  under the `text()` sentinel; bump the per-tag occurrence count, search the
  remaining entries for the bare or indexed address (`findIndex`), warn
  `non-existent child` and continue when absent, else splice the entry out,
  create the output child and recurse into it. -/
def blendChildren
    (recurse : List (String × JVal) → HtmlNode → String → String →
      Option (OutNode × List Warn))
    (xpath : String) :
    List (String × JVal) → List HtmlNode → List (String × Nat) →
    Option (List OutNode × List Warn)
  | [], [], _ => some ([], [])
  | [], _ :: _, _ => some ([], [.unexpectedEnd xpath false true])
  | _ :: _, [], _ => some ([], [.unexpectedEnd xpath true false])
  | e :: es, c :: rest, counts =>
    match c with
    | .comment _ => blendChildren recurse xpath (e :: es) rest counts
    | .directive _ => blendChildren recurse xpath (e :: es) rest counts
    | .document _ =>
      (blendChildren recurse xpath (e :: es) rest counts).map
        (fun r => (r.1, .unrecognizedChild xpath :: r.2))
    | .text s =>
      let num := lookupCount counts "text()" + 1
      let counts2 := setCount counts "text()" num
      let indexed := "/text()" ++ "[" ++ Nat.repr num ++ "]"
      match extractFirst (fun kv => kv.1 == "/text()" || kv.1 == indexed) (e :: es) with
      | none =>
        (blendChildren recurse xpath (e :: es) rest counts2).map
          (fun r => (r.1, .nonExistentChild xpath indexed :: r.2))
      | some ((jsonKey, jsonValue), entries2) =>
        let childXpath := if xpath == "/" then jsonKey else xpath ++ jsonKey
        match recurse jsonValue.entriesOf (.text s) "text" childXpath with
        | none => none
        | some (childNode, w1) =>
          (blendChildren recurse xpath entries2 rest counts2).map
            (fun r => (childNode :: r.1, w1 ++ r.2))
    | .element t nattrs ccs =>
      let num := lookupCount counts t + 1
      let counts2 := setCount counts t num
      let bare := "/" ++ t
      let indexed := bare ++ "[" ++ Nat.repr num ++ "]"
      match extractFirst (fun kv => kv.1 == bare || kv.1 == indexed) (e :: es) with
      | none =>
        (blendChildren recurse xpath (e :: es) rest counts2).map
          (fun r => (r.1, .nonExistentChild xpath indexed :: r.2))
      | some ((jsonKey, jsonValue), entries2) =>
        let outTag := if t == "text()" then "text" else t
        let childXpath := if xpath == "/" then jsonKey else xpath ++ jsonKey
        match recurse jsonValue.entriesOf (.element t nattrs ccs) outTag childXpath with
        | none => none
        | some (childNode, w1) =>
          (blendChildren recurse xpath entries2 rest counts2).map
            (fun r => (childNode :: r.1, w1 ++ r.2))

/-- `Blender.blendNode(data, htmlNode, xmlNode, xpath)`, with `fuel`
bounding the recursion depth (`none` = fuel exhausted; any fuel above the
HTML tree depth suffices, see the termination theorem).  `tag` is the tag
of the freshly created output node handed in by the caller.  Phases, in
source order: visual attributes; the unexpected-key check (early return
keeps the visual attributes and appends no children); HTML-side attributes
(`_text` for Text, renamed natives for an Element, nothing for Document,
warn and return otherwise); the child loop. -/
def blendNode : Nat → List (String × JVal) → HtmlNode → String → String →
    Option (OutNode × List Warn)
  | 0, _, _, _, _ => none
  | fuel + 1, data, html, tag, xpath =>
    match visualPhase data [] with
    | (attrs1, rest) =>
      match rest.find? (fun kv => !startsWithSlash kv.1) with
      | some (k, _) => some (.mk tag attrs1 [], [.unexpectedKey xpath k])
      | none =>
        match html with
        | .text s =>
          (blendChildren (blendNode fuel) xpath rest [] []).map
            (fun r => (.mk tag (setAttr attrs1 "_text" s) r.1, r.2))
        | .element _ nattrs cs =>
          let attrs2 := nattrs.foldl (fun acc nv => setAttr acc (renameNative nv.1) nv.2) attrs1
          (blendChildren (blendNode fuel) xpath rest cs []).map
            (fun r => (.mk tag attrs2 r.1, r.2))
        | .document cs =>
          (blendChildren (blendNode fuel) xpath rest cs []).map
            (fun r => (.mk tag attrs1 r.1, r.2))
        | .comment _ => some (.mk tag attrs1 [], [.unrecognizedElement xpath])
        | .directive _ => some (.mk tag attrs1 [], [.unrecognizedElement xpath])

mutual

/-- Depth of an HTML node (leaves have depth 1). -/
def HtmlNode.depth : HtmlNode → Nat
  | .document cs => 1 + depthList cs
  | .element _ _ cs => 1 + depthList cs
  | _ => 1

/-- Maximal depth over a list of HTML nodes. -/
def HtmlNode.depthList : List HtmlNode → Nat
  | [] => 0
  | c :: rest => max c.depth (depthList rest)

end

mutual

/-- The pair-count contribution of one HTML child: a Text or Element child
is one matched pair plus the pairs of its own subtree; Comment/Directive
(and a stray Document child) contribute nothing. -/
def HtmlNode.alignNode : HtmlNode → Nat
  | .text _ => 1
  | .element _ _ cs => 1 + alignList cs
  | _ => 0

/-- Total alignable-node count of a list of HTML children. -/
def HtmlNode.alignList : List HtmlNode → Nat
  | [] => 0
  | c :: rest => c.alignNode + alignList rest

end

/-- The number of alignable (Text/Element) HTML nodes strictly below a node:
the matched-pair count reconciliation can produce under that node. -/
def HtmlNode.alignUnder : HtmlNode → Nat
  | .document cs => HtmlNode.alignList cs
  | .element _ _ cs => HtmlNode.alignList cs
  | _ => 0

mutual

/-- The number of nodes of an output tree. -/
def OutNode.size : OutNode → Nat
  | .mk _ _ cs => 1 + sizeList cs

/-- Total node count of a list of output trees. -/
def OutNode.sizeList : List OutNode → Nat
  | [] => 0
  | c :: rest => c.size + sizeList rest

end

/-- Well-formedness of one JSON level, the invariant of the VisualNode
grammar: once the child entries (keys starting with `/`) begin, no
attribute key follows — exactly the condition under which `blendNode`'s
`unexpected key without slash` check passes. -/
def wfEntries (data : List (String × JVal)) : Bool :=
  (data.dropWhile (fun kv => !startsWithSlash kv.1)).all
    (fun kv => startsWithSlash kv.1)

/-- The child-level mirror condition (hypothesis of claim C2): JSON child
entries and HTML children correspond in document order.  Structured like
the child loop itself: both lists end together; Comment/Directive children
are skipped while entries remain; each Text/Element child finds, at the
head of the remaining entries, a key equal to its bare or occurrence-indexed
address, with a recursively mirroring value (`sub`). -/
def mirrorChildren (sub : List (String × JVal) → HtmlNode → Bool) :
    List (String × JVal) → List HtmlNode → List (String × Nat) → Bool
  | [], [], _ => true
  | [], _ :: _, _ => false
  | _ :: _, [], _ => false
  | (k, v) :: es, c :: rest, counts =>
    match c with
    | .comment _ => mirrorChildren sub ((k, v) :: es) rest counts
    | .directive _ => mirrorChildren sub ((k, v) :: es) rest counts
    | .document _ => false
    | .text _ =>
      let num := lookupCount counts "text()" + 1
      (k == "/text()" || k == "/text()" ++ "[" ++ Nat.repr num ++ "]") &&
        sub v.entriesOf c &&
        mirrorChildren sub es rest (setCount counts "text()" num)
    | .element t _ _ =>
      let num := lookupCount counts t + 1
      (k == "/" ++ t || k == "/" ++ t ++ "[" ++ Nat.repr num ++ "]") &&
        sub v.entriesOf c &&
        mirrorChildren sub es rest (setCount counts t num)

/-- The node-level mirror condition (hypothesis of claim C2): the JSON level
is well-formed, the HTML node is Document, Element or Text, a Text node has
no remaining child entries, and the child entries mirror the HTML children.
`fuel` bounds the recursion depth; `mirrorNode fuel data html = true`
guarantees the derivation fits in `fuel` levels. -/
def mirrorNode : Nat → List (String × JVal) → HtmlNode → Bool
  | 0, _, _ => false
  | fuel + 1, data, html =>
    let rest := data.dropWhile (fun kv => !startsWithSlash kv.1)
    rest.all (fun kv => startsWithSlash kv.1) &&
      match html with
      | .text _ => rest.isEmpty
      | .document cs => mirrorChildren (mirrorNode fuel) rest cs []
      | .element _ _ cs => mirrorChildren (mirrorNode fuel) rest cs []
      | _ => false

/-! ## Basic lemmas about the small helpers -/

theorem string_append_left_cancel {s a b : String} (h : s ++ a = s ++ b) : a = b := by
  apply String.ext
  have hd := congrArg String.data h
  rw [String.data_append, String.data_append] at hd
  exact List.append_cancel_left hd

theorem string_append_assoc (a b c : String) : a ++ b ++ c = a ++ (b ++ c) := by
  apply String.ext
  simp [String.data_append]

theorem headIs_underscore_append (a : String) : headIs '_' ("_" ++ a) = true := by
  have hd : ("_" ++ a).data = '_' :: a.data := by rw [String.data_append]; rfl
  simp [headIs, hd]

theorem headIs_double_underscore_append (a : String) : headIs '_' ("__" ++ a) = true := by
  have hd : ("__" ++ a).data = '_' :: '_' :: a.data := by rw [String.data_append]; rfl
  simp [headIs, hd]

theorem renameNative_inj {a b : String} (h : renameNative a = renameNative b) : a = b := by
  unfold renameNative at h
  split at h <;> split at h
  · exact string_append_left_cancel h
  · next ha hb =>
    rw [← h] at hb
    rw [headIs_double_underscore_append] at hb
    exact absurd hb (by simp)
  · next ha hb =>
    rw [h] at ha
    rw [headIs_double_underscore_append] at ha
    exact absurd ha (by simp)
  · exact h

theorem renameNative_ne_text (n : String) : renameNative n ≠ "_text" := by
  unfold renameNative
  split
  · next hn =>
    intro h
    have hd := congrArg String.data h
    rw [String.data_append] at hd
    have h1 : ("__" : String).data = ['_', '_'] := rfl
    have h2 : ("_text" : String).data = ['_', 't', 'e', 'x', 't'] := rfl
    rw [h1, h2] at hd
    simp at hd
  · next hn =>
    intro h
    rw [h] at hn
    exact absurd hn (by decide)

theorem mem_setAttr_self (l : List (String × String)) (k v : String) :
    (k, v) ∈ setAttr l k v := by
  induction l with
  | nil => simp [setAttr]
  | cons h t ih =>
    obtain ⟨k₀, v₀⟩ := h
    by_cases hk : k₀ == k
    · have : k₀ = k := by simpa using hk
      simp [setAttr, hk, this]
    · simp only [setAttr, hk]
      simp only [Bool.false_eq_true, if_false]
      exact List.mem_cons_of_mem _ ih

theorem mem_setAttr_of_ne {l : List (String × String)} {k₁ v₁ : String}
    (h : (k₁, v₁) ∈ l) (k₂ v₂ : String) (hne : k₂ ≠ k₁) : (k₁, v₁) ∈ setAttr l k₂ v₂ := by
  induction l with
  | nil => simp at h
  | cons hd t ih =>
    obtain ⟨k₀, v₀⟩ := hd
    rcases List.mem_cons.1 h with h₁ | h₁
    · have hk : k₁ = k₀ := by
        have := congrArg Prod.fst h₁; simpa using this
      have hv : v₁ = v₀ := by
        have := congrArg Prod.snd h₁; simpa using this
      subst hk; subst hv
      have hne' : (k₁ == k₂) = false := by
        simp [beq_iff_eq]; exact fun hh => hne hh.symm
      simp [setAttr, hne']
    · by_cases hk : k₀ == k₂
      · simp [setAttr, hk]
        right; exact h₁
      · simp only [setAttr, hk, Bool.false_eq_true, if_false]
        exact List.mem_cons_of_mem _ (ih h₁)

theorem lookupAttr_setAttr_self (l : List (String × String)) (k v : String) :
    lookupAttr (setAttr l k v) k = some v := by
  induction l with
  | nil => simp [setAttr, lookupAttr]
  | cons hd t ih =>
    obtain ⟨k₀, v₀⟩ := hd
    by_cases hk : k₀ == k
    · simp [setAttr, hk, lookupAttr, List.find?]
    · simp only [setAttr, hk, Bool.false_eq_true, if_false]
      simpa [lookupAttr, List.find?, hk] using ih

theorem extractFirst_cons_pos {p : α → Bool} {x : α} (xs : List α) (h : p x = true) :
    extractFirst p (x :: xs) = some (x, xs) := by
  simp [extractFirst, h]

theorem extractFirst_eq_none {p : α → Bool} {l : List α} (h : ∀ x ∈ l, p x = false) :
    extractFirst p l = none := by
  induction l with
  | nil => rfl
  | cons x xs ih =>
    have hx := h x (List.mem_cons_self x xs)
    simp [extractFirst, hx, ih (fun y hy => h y (List.mem_cons_of_mem x hy))]

theorem find?_none_of_all_slash {l : List (String × JVal)}
    (h : l.all (fun kv => startsWithSlash kv.1) = true) :
    l.find? (fun kv => !startsWithSlash kv.1) = none := by
  rw [List.find?_eq_none]
  intro x hx
  have := List.all_eq_true.1 h x hx
  simp [this]

theorem visualPhase_snd (data : List (String × JVal)) (acc : List (String × String)) :
    (visualPhase data acc).2 = data.dropWhile (fun kv => !startsWithSlash kv.1) := by
  induction data generalizing acc with
  | nil => simp [visualPhase, List.dropWhile]
  | cons hd t ih =>
    obtain ⟨k, v⟩ := hd
    by_cases hk : startsWithSlash k
    · simp [visualPhase, hk, List.dropWhile]
    · simp only [visualPhase, hk, Bool.false_eq_true, if_false, List.dropWhile,
        Bool.not_false, if_true]
      split <;> exact ih _

/-! ## Claim C4 — divergence containment (concrete scenario) -/

/-- C4: reconciling JSON `{ "/div[1]": {"/text()": {fontSize: 10}}, "/span[1]": {} }`
against HTML `<div>hi</div><p></p>`: the div child aligns and appears in the
output with its subtree fully built (the inner text node carrying
`_fontSize`/`_text`); the second HTML child `p` finds no JSON entry, which
logs a divergence (`non-existent child /p[1]`, followed by the level-ending
`unexpected end`); no further children are appended at that level; the first
child's subtree is unaffected. -/
theorem c4_divergence_containment :
    blendNode 10
      [("/div[1]", .obj [("/text()", .obj [("fontSize", .scalar "10")])]),
       ("/span[1]", .obj [])]
      (.document [.element "div" [] [.text "hi"], .element "p" [] []]) "#root" "/"
    = some (.mk "#root" []
        [.mk "div" [] [.mk "text" [("_fontSize", "10"), ("_text", "hi")] []]],
        [.nonExistentChild "/" "/p[1]", .unexpectedEnd "/" true false]) := rfl

/-! ## Claim C5 — per-level termination conditions -/

/-- C5: the child-processing loop ends normally (no diagnostic) exactly when
the JSON child-entry list and the HTML child list are simultaneously empty;
when exactly one of the two is empty it logs the level-ending `unexpected
end` inconsistency (recording which side was non-empty) and stops consuming
or appending children at that level — the loop result is closed off, so
children already built at the level (consed in front of this terminal
result) remain in the output. -/
theorem c5_level_termination :
    (∀ (recurse : List (String × JVal) → HtmlNode → String → String →
          Option (OutNode × List Warn))
        (xpath : String) (counts : List (String × Nat)),
        blendChildren recurse xpath [] [] counts = some ([], [])) ∧
    (∀ (recurse : List (String × JVal) → HtmlNode → String → String →
          Option (OutNode × List Warn))
        (xpath : String) (counts : List (String × Nat)) (c : HtmlNode) (cs : List HtmlNode),
        blendChildren recurse xpath [] (c :: cs) counts
          = some ([], [.unexpectedEnd xpath false true])) ∧
    (∀ (recurse : List (String × JVal) → HtmlNode → String → String →
          Option (OutNode × List Warn))
        (xpath : String) (counts : List (String × Nat))
        (e : String × JVal) (es : List (String × JVal)),
        blendChildren recurse xpath (e :: es) [] counts
          = some ([], [.unexpectedEnd xpath true false])) :=
  ⟨fun _ _ _ => rfl, fun _ _ _ _ _ => rfl, fun _ _ _ _ _ => rfl⟩

/-! ## Claim C9 — Comment/Directive skipping -/

/-- C9 counterexample: a Comment that is the only remaining HTML child while
the JSON child entries are already exhausted is not skipped silently — the
level's count check fires first and logs `unexpected end`, whereas with the
comment absent the level ends normally with no diagnostic.  So a
Comment/Directive child is not always processed "exactly as if that child
were absent". -/
theorem c9_counterexample :
    blendChildren (blendNode 1) "/" [] [.comment "x"] []
        = some ([], [.unexpectedEnd "/" false true]) ∧
    blendChildren (blendNode 1) "/" [] ([] : List HtmlNode) []
        = some ([], []) :=
  ⟨rfl, rfl⟩

/-- C9 amended: while at least one JSON child entry remains, a Comment or
Directive HTML child is skipped without consuming a JSON entry, without
touching the occurrence counts, and without producing any output node or
diagnostic — the level continues exactly as if the child were absent.  When
the JSON entries are exhausted, the count-mismatch check fires before the
skip, so a remaining Comment/Directive makes the level end with the
`unexpected end` diagnostic. -/
theorem c9_amended :
    (∀ (recurse : List (String × JVal) → HtmlNode → String → String →
          Option (OutNode × List Warn))
        (xpath s : String) (e : String × JVal) (es : List (String × JVal))
        (rest : List HtmlNode) (counts : List (String × Nat)),
        blendChildren recurse xpath (e :: es) (.comment s :: rest) counts
          = blendChildren recurse xpath (e :: es) rest counts) ∧
    (∀ (recurse : List (String × JVal) → HtmlNode → String → String →
          Option (OutNode × List Warn))
        (xpath s : String) (e : String × JVal) (es : List (String × JVal))
        (rest : List HtmlNode) (counts : List (String × Nat)),
        blendChildren recurse xpath (e :: es) (.directive s :: rest) counts
          = blendChildren recurse xpath (e :: es) rest counts) ∧
    (∀ (recurse : List (String × JVal) → HtmlNode → String → String →
          Option (OutNode × List Warn))
        (xpath s : String) (rest : List HtmlNode) (counts : List (String × Nat)),
        blendChildren recurse xpath [] (.comment s :: rest) counts
          = some ([], [.unexpectedEnd xpath false true])) ∧
    (∀ (recurse : List (String × JVal) → HtmlNode → String → String →
          Option (OutNode × List Warn))
        (xpath s : String) (rest : List HtmlNode) (counts : List (String × Nat)),
        blendChildren recurse xpath [] (.directive s :: rest) counts
          = some ([], [.unexpectedEnd xpath false true])) :=
  ⟨fun _ _ _ _ _ _ _ => rfl, fun _ _ _ _ _ _ _ => rfl,
   fun _ _ _ _ _ => rfl, fun _ _ _ _ _ => rfl⟩

/-! ## Claim C1 — strict-order versus search-based matching -/

/-- C1 counterexample: with JSON child entries `{"/span[1]", "/div[1]"}` (in
that insertion order) against HTML `<div/><span/>`, strict lock-step pairing
would pair `/span[1]` with the first HTML child `div`, find the tags unequal,
abandon the level and append nothing.  The code instead searches the whole
remaining entry list (`findIndex`): both children are matched out of declared
order, two output nodes are appended and no divergence is logged — the first
component below records (appended children, logged diagnostics) = (2, 0). -/
theorem c1_counterexample :
    (blendChildren (blendNode 3) "/"
        [("/span[1]", .obj []), ("/div[1]", .obj [])]
        [.element "div" [] [], .element "span" [] []] []).map
      (fun r => (r.1.length, r.2.length)) = some (2, 0) ∧
    blendChildren (blendNode 3) "/"
        [("/span[1]", .obj []), ("/div[1]", .obj [])]
        [.element "div" [] [], .element "span" [] []] []
      = some ([.mk "div" [] [], .mk "span" [] []], []) :=
  ⟨rfl, rfl⟩

/-! ## Claim C3 — bare child-key form -/

/-- C3 counterexample: the bare key `/div` is not restricted to the first
`div` occurrence.  With JSON entries `{"/div[1]": {x: 1}, "/div": {x: 2}}`
against HTML `<div n="1"/><div n="2"/>`, the code compares JSON keys
literally against the formatted addresses `/div` and `/div[n]` of each HTML
child, so the bare entry is consumed by the second `div` (the output pairs
visual `_x = 2` with native `n = 2`), and no divergence is logged. -/
theorem c3_counterexample :
    blendNode 4
      [("/div[1]", .obj [("x", .scalar "1")]), ("/div", .obj [("x", .scalar "2")])]
      (.document [.element "div" [("n", "1")] [], .element "div" [("n", "2")] []])
      "#root" "/"
    = some (.mk "#root" []
        [.mk "div" [("_x", "1"), ("n", "1")] [],
         .mk "div" [("_x", "2"), ("n", "2")] []], []) := rfl

/-! ## Claim C6 — visual attribute handling -/

/-- C1 amended: matching is search-based, not strict lock-step.  For each
Text/Element HTML child the code searches the whole remaining JSON entry
list for a key equal to the child's bare or occurrence-indexed address:
(1) an entry whose key addresses a later HTML child is matched out of
declared order — both children of the level are aligned and no divergence
is logged; (2) when no remaining key matches the current child's address,
a `non-existent child` divergence is logged for that child and alignment
continues with the next HTML child (the level is not abandoned). -/
theorem c1_amended :
    (∀ (recurse : List (String × JVal) → HtmlNode → String → String →
          Option (OutNode × List Warn))
        (t₁ t₂ k₁ k₂ : String) (v₁ v₂ : JVal)
        (a₁ a₂ : List (String × String)) (c₁ c₂ : List HtmlNode)
        (n₁ n₂ : OutNode) (w₁ w₂ : List Warn),
        (t₁ == "text()") = false →
        (t₂ == "text()") = false →
        (t₁ == t₂) = false →
        (k₂ == "/" ++ t₁) = false →
        (k₂ == "/" ++ t₁ ++ "[" ++ Nat.repr 1 ++ "]") = false →
        (k₁ == "/" ++ t₁ || k₁ == "/" ++ t₁ ++ "[" ++ Nat.repr 1 ++ "]") = true →
        (k₂ == "/" ++ t₂ || k₂ == "/" ++ t₂ ++ "[" ++ Nat.repr 1 ++ "]") = true →
        recurse v₁.entriesOf (.element t₁ a₁ c₁) t₁ k₁ = some (n₁, w₁) →
        recurse v₂.entriesOf (.element t₂ a₂ c₂) t₂ k₂ = some (n₂, w₂) →
        blendChildren recurse "/" [(k₂, v₂), (k₁, v₁)]
            [.element t₁ a₁ c₁, .element t₂ a₂ c₂] []
          = some ([n₁, n₂], w₁ ++ w₂)) ∧
    (∀ (recurse : List (String × JVal) → HtmlNode → String → String →
          Option (OutNode × List Warn))
        (xpath t : String) (nattrs : List (String × String)) (ccs rest : List HtmlNode)
        (e : String × JVal) (es : List (String × JVal)) (counts : List (String × Nat)),
        (∀ kv ∈ e :: es, (kv.1 == "/" ++ t) = false ∧
          (kv.1 == "/" ++ t ++ "[" ++ Nat.repr (lookupCount counts t + 1) ++ "]") = false) →
        blendChildren recurse xpath (e :: es) (.element t nattrs ccs :: rest) counts
          = (blendChildren recurse xpath (e :: es) rest
                (setCount counts t (lookupCount counts t + 1))).map
              (fun r => (r.1,
                .nonExistentChild xpath
                  ("/" ++ t ++ "[" ++ Nat.repr (lookupCount counts t + 1) ++ "]") :: r.2))) := by
  constructor
  · intro recurse t₁ t₂ k₁ k₂ v₁ v₂ a₁ a₂ c₁ c₂ n₁ n₂ w₁ w₂
      ht₁ ht₂ ht₁₂ hk₂b hk₂i hk₁ hk₂ hb₁ hb₂
    simp only [blendChildren, lookupCount, List.find?, extractFirst]
    simp only [hk₂b, hk₂i, Bool.or_self, Bool.false_or]
    simp [extractFirst, hk₁, ht₁, hb₁, setCount, lookupCount, List.find?, ht₁₂,
      hk₂, ht₂, hb₂, blendChildren]
  · intro recurse xpath t nattrs ccs rest e es counts h
    have hnone : extractFirst
        (fun kv => kv.1 == "/" ++ t ||
          kv.1 == "/" ++ t ++ "[" ++ Nat.repr (lookupCount counts t + 1) ++ "]")
        (e :: es) = none :=
      extractFirst_eq_none (fun kv hkv => by simp [(h kv hkv).1, (h kv hkv).2])
    simp only [blendChildren]
    rw [hnone]

/-- C1 witness inputs are exercised concretely below. -/
theorem c1_amended_witness :
    blendChildren (blendNode 1) "/" [("/span[1]", .obj []), ("/div[1]", .obj [])]
        [.element "div" [] [], .element "span" [] []] []
      = some ([.mk "div" [] [], .mk "span" [] []], ([] : List Warn) ++ []) ∧
    blendChildren (blendNode 1) "/" [("/a[1]", .obj [])]
        [.element "b" [] [] , .element "a" [] []] []
      = (blendChildren (blendNode 1) "/" [("/a[1]", .obj [])] [.element "a" [] []]
            (setCount [] "b" (lookupCount [] "b" + 1))).map
          (fun r => (r.1,
            .nonExistentChild "/" ("/" ++ "b" ++ "[" ++ Nat.repr (lookupCount [] "b" + 1) ++ "]")
              :: r.2)) :=
  ⟨c1_amended.1 (blendNode 1) "div" "span" "/div[1]" "/span[1]" (.obj []) (.obj [])
      [] [] [] [] (.mk "div" [] []) (.mk "span" [] []) [] []
      (by decide) (by decide) (by decide) (by decide) (by decide) (by decide) (by decide)
      rfl rfl,
   c1_amended.2 (blendNode 1) "/" "b" [] [] [.element "a" [] []]
      ("/a[1]", .obj []) [] [] (by decide)⟩

/-- C3 amended: the bare child-key form `"/" + t` is not an implicit
occurrence index of 1.  The code never parses JSON keys; it formats the
current HTML child's bare and indexed addresses and compares keys literally,
and the bare form equals the bare address of *every* occurrence of tag `t`.
Hence a bare key is consumed by the first still-unmatched same-tag HTML
child the loop reaches, whatever its occurrence index: below, the indexed
entry `k₁` is consumed by the first occurrence and the bare entry
`"/" + t` is then consumed by the second occurrence (blended against the
second element), with no divergence logged. -/
theorem c3_amended :
    ∀ (recurse : List (String × JVal) → HtmlNode → String → String →
        Option (OutNode × List Warn))
      (t k₁ : String) (v₁ v₂ : JVal)
      (a₁ a₂ : List (String × String)) (c₁ c₂ : List HtmlNode)
      (n₁ n₂ : OutNode) (w₁ w₂ : List Warn),
      (t == "text()") = false →
      (k₁ == "/" ++ t || k₁ == "/" ++ t ++ "[" ++ Nat.repr 1 ++ "]") = true →
      recurse v₁.entriesOf (.element t a₁ c₁) t k₁ = some (n₁, w₁) →
      recurse v₂.entriesOf (.element t a₂ c₂) t ("/" ++ t) = some (n₂, w₂) →
      blendChildren recurse "/" [(k₁, v₁), ("/" ++ t, v₂)]
          [.element t a₁ c₁, .element t a₂ c₂] []
        = some ([n₁, n₂], w₁ ++ w₂) := by
  intro recurse t k₁ v₁ v₂ a₁ a₂ c₁ c₂ n₁ n₂ w₁ w₂ ht hk₁ hb₁ hb₂
  simp only [blendChildren, lookupCount, List.find?, extractFirst]
  simp [extractFirst, hk₁, ht, hb₁, setCount, lookupCount, List.find?, hb₂, blendChildren]

/-- C3 witness inputs are exercised concretely below. -/
theorem c3_amended_witness :
    blendChildren (blendNode 1) "/" [("/div[1]", .obj []), ("/" ++ "div", .obj [])]
        [.element "div" [("n", "1")] [], .element "div" [("n", "2")] []] []
      = some ([.mk "div" [("n", "1")] [], .mk "div" [("n", "2")] []], ([] : List Warn) ++ []) :=
  c3_amended (blendNode 1) "div" "/div[1]" (.obj []) (.obj [])
    [("n", "1")] [("n", "2")] [] [] (.mk "div" [("n", "1")] []) (.mk "div" [("n", "2")] [])
    [] [] (by decide) (by decide) rfl rfl

/-! ## Lemmas for the attribute-merge claims -/

theorem foldl_setAttr_preserved (nattrs : List (String × String))
    (acc : List (String × String)) (key val : String) (h : (key, val) ∈ acc)
    (hw : ∀ nv ∈ nattrs, renameNative nv.1 ≠ key) :
    (key, val) ∈ nattrs.foldl (fun acc nv => setAttr acc (renameNative nv.1) nv.2) acc := by
  induction nattrs generalizing acc with
  | nil => simpa using h
  | cons hd t ih =>
    simp only [List.foldl_cons]
    exact ih _ (mem_setAttr_of_ne h _ _ (hw hd (List.mem_cons_self _ _)))
      (fun nv hnv => hw nv (List.mem_cons_of_mem _ hnv))

theorem foldl_setAttr_mem (nattrs : List (String × String))
    (acc : List (String × String)) (n v : String) (hmem : (n, v) ∈ nattrs)
    (hnd : (nattrs.map Prod.fst).Nodup) :
    (renameNative n, v) ∈ nattrs.foldl (fun acc nv => setAttr acc (renameNative nv.1) nv.2) acc := by
  induction nattrs generalizing acc with
  | nil => simp at hmem
  | cons hd t ih =>
    obtain ⟨n₀, v₀⟩ := hd
    simp only [List.map_cons, List.nodup_cons] at hnd
    rcases List.mem_cons.1 hmem with h₁ | h₁
    · have hn : n = n₀ := by have := congrArg Prod.fst h₁; simpa using this
      have hv : v = v₀ := by have := congrArg Prod.snd h₁; simpa using this
      subst hn; subst hv
      simp only [List.foldl_cons]
      refine foldl_setAttr_preserved t _ _ _ (mem_setAttr_self acc _ _) ?_
      intro nv hnv h
      exact hnd.1 (renameNative_inj h ▸ List.mem_map_of_mem Prod.fst hnv)
    · simp only [List.foldl_cons]
      exact ih _ h₁ hnd.2

/-! ## Claim C7 — native HTML attributes -/

/-- C7 counterexample: a native attribute literally named `_foo` is not
emitted under `__foo`.  The source renames with the two-underscore
template (`'__' + name`), so the whole name gets two more underscores and
`_foo` is emitted as `___foo`; the name `__foo` appears nowhere in the
output. -/
theorem c7_counterexample :
    blendNode 2 [] (.element "div" [("_foo", "w")] []) "div" "/div[1]"
      = some (.mk "div" [("___foo", "w")] [], []) ∧
    ("__foo", "w") ∉ OutNode.attrsOf (.mk "div" [("___foo", "w")] []) :=
  ⟨rfl, by decide⟩

/-- C7 amended: when the aligned HtmlNode is an Element (and the JSON level
satisfies the VisualNode grammar invariant, so the level is not abandoned
by the unexpected-key check), every native HTML attribute `(n, v)` (native
names are unique, being JS object keys) appears in the output node's final
attributes under the renamed name — identity for names not starting with
`_`, two extra leading underscores otherwise: `_foo` is emitted as
`___foo`, not `__foo`.  The rename still keeps native and visual
attributes apart: a native `_foo` and a visual `foo` (emitted `_foo`)
coexist without either overwriting the other, as the concrete third part
shows. -/
theorem c7_native_attributes :
    (∀ (fuel : Nat) (data : List (String × JVal)) (t : String)
        (nattrs : List (String × String)) (cs : List HtmlNode)
        (tag xpath n v : String) (out : OutNode) (ws : List Warn),
        wfEntries data = true →
        (nattrs.map Prod.fst).Nodup →
        (n, v) ∈ nattrs →
        blendNode fuel data (.element t nattrs cs) tag xpath = some (out, ws) →
        (renameNative n, v) ∈ out.attrsOf) ∧
    (∀ n : String, renameNative ("_" ++ n) = "___" ++ n) ∧
    blendNode 2 [("foo", .str "v")] (.element "div" [("_foo", "w")] []) "div" "/div[1]"
      = some (.mk "div" [("_foo", "v"), ("___foo", "w")] [], []) := by
  refine ⟨?_, ?_, rfl⟩
  · intro fuel data t nattrs cs tag xpath n v out ws hwf hnd hmem hb
    cases fuel with
    | zero => simp [blendNode] at hb
    | succ m =>
      simp only [blendNode] at hb
      rcases hvp : visualPhase data [] with ⟨attrs1, rest⟩
      rw [hvp] at hb
      dsimp only at hb
      have hrest : rest = data.dropWhile (fun kv => !startsWithSlash kv.1) := by
        have := visualPhase_snd data []
        rw [hvp] at this
        exact this
      have hall : rest.all (fun kv => startsWithSlash kv.1) = true := by
        rw [hrest]; exact hwf
      rw [find?_none_of_all_slash hall] at hb
      dsimp only at hb
      cases hbc : blendChildren (blendNode m) xpath rest cs [] with
      | none => rw [hbc] at hb; simp at hb
      | some r =>
        rw [hbc] at hb
        simp only [Option.map_some', Option.some.injEq, Prod.mk.injEq] at hb
        rw [← hb.1]
        exact foldl_setAttr_mem nattrs attrs1 n v hmem hnd
  · intro n
    have h := headIs_underscore_append n
    simp only [renameNative, h, if_true]
    rw [← string_append_assoc]
    have h2 : ("__" : String) ++ "_" = "___" := rfl
    rw [h2]

/-- C7 witness inputs are exercised concretely below. -/
theorem c7_native_attributes_witness :
    (renameNative "cls", "x") ∈ OutNode.attrsOf (.mk "div" [("_a", "1"), ("cls", "x")] []) :=
  c7_native_attributes.1 2 [("a", .scalar "1")] "div" [("cls", "x")] [] "div" "/div[1]"
    "cls" "x" (.mk "div" [("_a", "1"), ("cls", "x")] []) []
    (by decide) (by decide) (by decide) rfl

/-! ## Claim C8 — text content -/

/-- C8: an aligned HTML Text node yields an output element whose final
`_text` attribute is exactly the Text node's raw string content (whatever
visual attributes were written first — a visual `_text` write is
overwritten), provided the JSON level satisfies the VisualNode grammar
invariant (otherwise the level is abandoned before the HTML side runs).
Text is the only source of `_text` from the HTML side: no native Element
attribute can be emitted under the name `_text` (second part), and the
output tree has no text-node variant at all, so raw text reaches the
output only through these `_text` attributes.  The third part is the
spec's concrete scenario: `<p>hello</p>` with
`{"/p[1]": {"/text()": {fontSize: 10}}}` yields
`<p><text _fontSize="10" _text="hello"/></p>` (the `text` tag being chosen
for the matched `text()` sentinel). -/
theorem c8_text_nodes :
    (∀ (fuel : Nat) (data : List (String × JVal)) (s tag xpath : String)
        (out : OutNode) (ws : List Warn),
        wfEntries data = true →
        blendNode fuel data (.text s) tag xpath = some (out, ws) →
        lookupAttr out.attrsOf "_text" = some s) ∧
    (∀ (t : String) (nattrs : List (String × String)) (cs : List HtmlNode),
        "_text" ∉ htmlAttrWrites (.element t nattrs cs)) ∧
    blendNode 10 [("/p[1]", .obj [("/text()", .obj [("fontSize", .scalar "10")])])]
        (.document [.element "p" [] [.text "hello"]]) "#root" "/"
      = some (.mk "#root" []
          [.mk "p" [] [.mk "text" [("_fontSize", "10"), ("_text", "hello")] []]], []) := by
  refine ⟨?_, ?_, rfl⟩
  · intro fuel data s tag xpath out ws hwf hb
    cases fuel with
    | zero => simp [blendNode] at hb
    | succ m =>
      simp only [blendNode] at hb
      rcases hvp : visualPhase data [] with ⟨attrs1, rest⟩
      rw [hvp] at hb
      dsimp only at hb
      have hrest : rest = data.dropWhile (fun kv => !startsWithSlash kv.1) := by
        have := visualPhase_snd data []
        rw [hvp] at this
        exact this
      have hall : rest.all (fun kv => startsWithSlash kv.1) = true := by
        rw [hrest]; exact hwf
      rw [find?_none_of_all_slash hall] at hb
      dsimp only at hb
      cases hbc : blendChildren (blendNode m) xpath rest [] [] with
      | none => rw [hbc] at hb; simp at hb
      | some r =>
        rw [hbc] at hb
        simp only [Option.map_some', Option.some.injEq, Prod.mk.injEq] at hb
        rw [← hb.1]
        exact lookupAttr_setAttr_self attrs1 "_text" s
  · intro t nattrs cs
    simp only [htmlAttrWrites, List.mem_map]
    rintro ⟨nv, hnv, h⟩
    exact renameNative_ne_text nv.1 h

/-- C8 witness inputs are exercised concretely below. -/
theorem c8_text_nodes_witness :
    lookupAttr (OutNode.attrsOf (.mk "text" [("_fontSize", "10"), ("_text", "hi")] []))
      "_text" = some "hi" :=
  c8_text_nodes.1 2 [("fontSize", .scalar "10")] "hi" "text" "/p[1]/text()"
    (.mk "text" [("_fontSize", "10"), ("_text", "hi")] []) []
    (by decide) rfl

/-! ## Claim C10 — termination -/

theorem blendChildren_total (children : List HtmlNode)
    (recurse : List (String × JVal) → HtmlNode → String → String →
      Option (OutNode × List Warn))
    (xpath : String)
    (hrec : ∀ d c t x, c ∈ children → ∃ r, recurse d c t x = some r) :
    ∀ entries counts, ∃ r, blendChildren recurse xpath entries children counts = some r := by
  induction children with
  | nil =>
    intro entries counts
    cases entries with
    | nil => exact ⟨_, rfl⟩
    | cons e es => exact ⟨_, rfl⟩
  | cons c rest ih =>
    have hrec' : ∀ d c' t x, c' ∈ rest → ∃ r, recurse d c' t x = some r :=
      fun d c' t x h => hrec d c' t x (List.mem_cons_of_mem _ h)
    intro entries counts
    cases entries with
    | nil => exact ⟨_, rfl⟩
    | cons e es =>
      cases c with
      | comment s => simpa only [blendChildren] using ih hrec' (e :: es) counts
      | directive s => simpa only [blendChildren] using ih hrec' (e :: es) counts
      | document cs' =>
        obtain ⟨r, hr⟩ := ih hrec' (e :: es) counts
        exact ⟨_, by simp only [blendChildren]; rw [hr]; rfl⟩
      | text s =>
        rcases hex : extractFirst
            (fun kv => kv.1 == "/text()" ||
              kv.1 == "/text()" ++ "[" ++ Nat.repr (lookupCount counts "text()" + 1) ++ "]")
            (e :: es) with _ | ⟨⟨jk, jv⟩, entries2⟩
        · obtain ⟨r, hr⟩ :=
            ih hrec' (e :: es) (setCount counts "text()" (lookupCount counts "text()" + 1))
          exact ⟨_, by simp only [blendChildren]; rw [hex]; dsimp only; rw [hr]; rfl⟩
        · obtain ⟨⟨nd, w1⟩, hr1⟩ := hrec jv.entriesOf (.text s) "text"
            (if xpath == "/" then jk else xpath ++ jk) (List.mem_cons_self _ _)
          obtain ⟨r2, hr2⟩ :=
            ih hrec' entries2 (setCount counts "text()" (lookupCount counts "text()" + 1))
          exact ⟨_, by simp only [blendChildren]; rw [hex]; dsimp only; rw [hr1, hr2]; rfl⟩
      | element t nattrs ccs =>
        rcases hex : extractFirst
            (fun kv => kv.1 == "/" ++ t ||
              kv.1 == "/" ++ t ++ "[" ++ Nat.repr (lookupCount counts t + 1) ++ "]")
            (e :: es) with _ | ⟨⟨jk, jv⟩, entries2⟩
        · obtain ⟨r, hr⟩ := ih hrec' (e :: es) (setCount counts t (lookupCount counts t + 1))
          exact ⟨_, by simp only [blendChildren]; rw [hex]; dsimp only; rw [hr]; rfl⟩
        · obtain ⟨⟨nd, w1⟩, hr1⟩ := hrec jv.entriesOf (.element t nattrs ccs)
            (if t == "text()" then "text" else t)
            (if xpath == "/" then jk else xpath ++ jk) (List.mem_cons_self _ _)
          obtain ⟨r2, hr2⟩ := ih hrec' entries2 (setCount counts t (lookupCount counts t + 1))
          exact ⟨_, by simp only [blendChildren]; rw [hex]; dsimp only; rw [hr1, hr2]; rfl⟩

theorem depth_le_of_mem {c : HtmlNode} {cs : List HtmlNode} (h : c ∈ cs) :
    c.depth ≤ HtmlNode.depthList cs := by
  induction cs with
  | nil => simp at h
  | cons hd t ih =>
    rcases List.mem_cons.1 h with h₁ | h₁
    · rw [h₁]
      exact Nat.le_max_left _ _
    · exact Nat.le_trans (ih h₁) (Nat.le_max_right _ _)

/-- C10: reconciliation terminates on every pair of finite input trees.
`blendChildren` is structurally recursive on the HTML child list (each
iteration removes the head or ends the level), and each recursive
`blendNode` call descends into an HTML child, so any fuel above the HTML
tree's depth is enough: the faithful fueled program never reaches the
out-of-fuel `none` case, i.e. `blendNode` is total. -/
theorem c10_terminates :
    ∀ (fuel : Nat) (data : List (String × JVal)) (html : HtmlNode) (tag xpath : String),
      html.depth < fuel →
      ∃ r, blendNode fuel data html tag xpath = some r := by
  intro fuel
  induction fuel with
  | zero => intro data html tag xpath h; exact absurd h (Nat.not_lt_zero _)
  | succ m ih =>
    intro data html tag xpath h
    rcases hvp : visualPhase data [] with ⟨attrs1, rest⟩
    cases hf : rest.find? (fun kv => !startsWithSlash kv.1) with
    | some kv =>
      obtain ⟨k', v'⟩ := kv
      refine ⟨(OutNode.mk tag attrs1 [], [Warn.unexpectedKey xpath k']), ?_⟩
      simp only [blendNode]
      rw [hvp]
      dsimp only
      rw [hf]
    | none =>
      cases html with
      | text s =>
        obtain ⟨r, hr⟩ := blendChildren_total [] (blendNode m) xpath
          (fun d c t x hc => absurd hc (List.not_mem_nil c)) rest []
        refine ⟨(OutNode.mk tag (setAttr attrs1 "_text" s) r.1, r.2), ?_⟩
        simp only [blendNode]
        rw [hvp]
        dsimp only
        rw [hf]
        dsimp only
        rw [hr]
        rfl
      | element t nattrs cs =>
        have hd : HtmlNode.depthList cs < m := by
          have hdepth : (HtmlNode.element t nattrs cs).depth
              = 1 + HtmlNode.depthList cs := rfl
          rw [hdepth] at h
          omega
        obtain ⟨r, hr⟩ := blendChildren_total cs (blendNode m) xpath
          (fun d c tg x hc => ih d c tg x (Nat.lt_of_le_of_lt (depth_le_of_mem hc) hd))
          rest []
        refine ⟨(OutNode.mk tag
            (nattrs.foldl (fun acc nv => setAttr acc (renameNative nv.1) nv.2) attrs1)
            r.1, r.2), ?_⟩
        simp only [blendNode]
        rw [hvp]
        dsimp only
        rw [hf]
        dsimp only
        rw [hr]
        rfl
      | document cs =>
        have hd : HtmlNode.depthList cs < m := by
          have hdepth : (HtmlNode.document cs).depth = 1 + HtmlNode.depthList cs := rfl
          rw [hdepth] at h
          omega
        obtain ⟨r, hr⟩ := blendChildren_total cs (blendNode m) xpath
          (fun d c tg x hc => ih d c tg x (Nat.lt_of_le_of_lt (depth_le_of_mem hc) hd))
          rest []
        refine ⟨(OutNode.mk tag attrs1 r.1, r.2), ?_⟩
        simp only [blendNode]
        rw [hvp]
        dsimp only
        rw [hf]
        dsimp only
        rw [hr]
        rfl
      | comment s =>
        refine ⟨(OutNode.mk tag attrs1 [], [Warn.unrecognizedElement xpath]), ?_⟩
        simp only [blendNode]
        rw [hvp]
        dsimp only
        rw [hf]
      | directive s =>
        refine ⟨(OutNode.mk tag attrs1 [], [Warn.unrecognizedElement xpath]), ?_⟩
        simp only [blendNode]
        rw [hvp]
        dsimp only
        rw [hf]

/-- C10 witness inputs are exercised concretely below. -/
theorem c10_terminates_witness :
    HtmlNode.depth (.document [.element "div" [] [.text "hi"], .comment "c"]) < 5 ∧
    ∃ r, blendNode 5 [("/div[1]", .obj [("/text()", .obj [])])]
      (.document [.element "div" [] [.text "hi"], .comment "c"]) "#root" "/" = some r :=
  ⟨by decide,
   c10_terminates 5 [("/div[1]", .obj [("/text()", .obj [])])]
     (.document [.element "div" [] [.text "hi"], .comment "c"]) "#root" "/" (by decide)⟩

/-! ## Claim C2 — well-formed mirrored inputs -/

/-- C2 counterexample: JSON child entries `{"/div[1]"}` against HTML
`<div/><!--c-->`.  The keys exactly mirror the Text/Element HTML children
in document order (the `div` is the only alignable child, keyed
`/div[1]`), yet reconciliation emits a warn-level diagnostic: once the
entries are exhausted the trailing Comment makes the level-ending count
check fire (`unexpected end`, the same boundary as claim C9), so "no
divergence is emitted" fails.  The matched pair is still produced. -/
theorem c2_counterexample :
    blendNode 3 [("/div[1]", .obj [])]
      (.document [.element "div" [] [], .comment "c"]) "#root" "/"
      = some (.mk "#root" [] [.mk "div" [] []], [.unexpectedEnd "/" false true]) := rfl

theorem blendChildren_mirror
    (recurse : List (String × JVal) → HtmlNode → String → String →
      Option (OutNode × List Warn))
    (sub : List (String × JVal) → HtmlNode → Bool)
    (hsub : ∀ d c t x, sub d c = true →
      ∃ nd, recurse d c t x = some (nd, []) ∧ nd.size = 1 + c.alignUnder) :
    ∀ (children : List HtmlNode) (entries : List (String × JVal))
      (counts : List (String × Nat)) (xpath : String),
      mirrorChildren sub entries children counts = true →
      ∃ ns, blendChildren recurse xpath entries children counts = some (ns, []) ∧
        OutNode.sizeList ns = HtmlNode.alignList children := by
  intro children
  induction children with
  | nil =>
    intro entries counts xpath hm
    cases entries with
    | nil => exact ⟨[], rfl, rfl⟩
    | cons e es => simp [mirrorChildren] at hm
  | cons c rest ih =>
    intro entries counts xpath hm
    cases entries with
    | nil =>
      have : mirrorChildren sub [] (c :: rest) counts = false := rfl
      rw [this] at hm
      simp at hm
    | cons e es =>
      obtain ⟨k, v⟩ := e
      cases c with
      | comment s =>
        obtain ⟨ns, h1, h2⟩ := ih ((k, v) :: es) counts xpath hm
        refine ⟨ns, h1, ?_⟩
        simp only [HtmlNode.alignList, HtmlNode.alignNode]
        omega
      | directive s =>
        obtain ⟨ns, h1, h2⟩ := ih ((k, v) :: es) counts xpath hm
        refine ⟨ns, h1, ?_⟩
        simp only [HtmlNode.alignList, HtmlNode.alignNode]
        omega
      | document cs' =>
        have : mirrorChildren sub ((k, v) :: es) (.document cs' :: rest) counts = false := rfl
        rw [this] at hm
        simp at hm
      | text s =>
        simp only [mirrorChildren, Bool.and_eq_true] at hm
        obtain ⟨⟨hk, hs⟩, hrest⟩ := hm
        obtain ⟨nd, hnd, hsize⟩ := hsub v.entriesOf (.text s) "text"
          (if xpath == "/" then k else xpath ++ k) hs
        obtain ⟨ns, h1, h2⟩ := ih es
          (setCount counts "text()" (lookupCount counts "text()" + 1)) xpath hrest
        have hex : extractFirst
            (fun kv => kv.1 == "/text()" ||
              kv.1 == "/text()" ++ "[" ++ Nat.repr (lookupCount counts "text()" + 1) ++ "]")
            ((k, v) :: es) = some ((k, v), es) := extractFirst_cons_pos es hk
        refine ⟨nd :: ns, ?_, ?_⟩
        · simp only [blendChildren]
          rw [hex]
          dsimp only
          rw [hnd]
          dsimp only
          rw [h1]
          rfl
        · simp only [OutNode.sizeList, HtmlNode.alignList, HtmlNode.alignNode,
            HtmlNode.alignUnder] at *
          omega
      | element t nattrs ccs =>
        simp only [mirrorChildren, Bool.and_eq_true] at hm
        obtain ⟨⟨hk, hs⟩, hrest⟩ := hm
        obtain ⟨nd, hnd, hsize⟩ := hsub v.entriesOf (.element t nattrs ccs)
          (if t == "text()" then "text" else t)
          (if xpath == "/" then k else xpath ++ k) hs
        obtain ⟨ns, h1, h2⟩ := ih es
          (setCount counts t (lookupCount counts t + 1)) xpath hrest
        have hex : extractFirst
            (fun kv => kv.1 == "/" ++ t ||
              kv.1 == "/" ++ t ++ "[" ++ Nat.repr (lookupCount counts t + 1) ++ "]")
            ((k, v) :: es) = some ((k, v), es) := extractFirst_cons_pos es hk
        refine ⟨nd :: ns, ?_, ?_⟩
        · simp only [blendChildren]
          rw [hex]
          dsimp only
          rw [hnd]
          dsimp only
          rw [h1]
          rfl
        · simp only [OutNode.sizeList, HtmlNode.alignList, HtmlNode.alignNode,
            HtmlNode.alignUnder] at *
          omega

/-- C2 amended: for every pair of inputs satisfying the mirror condition —
at every level the JSON child-path keys (in insertion order) correspond
one-to-one, in document order, to the Text/Element HTML children, each key
equal to the child's bare or occurrence-indexed address (`/text()`
sentinel for Text nodes), visual attributes preceding child entries, and
additionally no Comment/Directive child trailing the final matched child
(the HTML child list must run out exactly when the JSON entries do, since
a trailing Comment/Directive with entries exhausted triggers the
level-ending count check — the counterexample above; `mirrorChildren`
rejects that case in its `[], _ :: _` arm while still skipping
Comment/Directive children whenever entries remain) — reconciliation
emits no diagnostic at all (warn list empty), and the output tree has
exactly one OutputNode per matched JSON/HTML pair: its total node count is
one (the root) plus the number of alignable HTML nodes below the root. -/
theorem c2_mirror :
    ∀ (fuel : Nat) (data : List (String × JVal)) (html : HtmlNode) (tag xpath : String),
      mirrorNode fuel data html = true →
      ∃ out, blendNode fuel data html tag xpath = some (out, []) ∧
        out.size = 1 + html.alignUnder := by
  intro fuel
  induction fuel with
  | zero => intro d h t x hm; simp [mirrorNode] at hm
  | succ m ih =>
    intro data html tag xpath hm
    rcases hvp : visualPhase data [] with ⟨attrs1, rest⟩
    have hrest : rest = data.dropWhile (fun kv => !startsWithSlash kv.1) := by
      have := visualPhase_snd data []
      rw [hvp] at this
      exact this
    simp only [mirrorNode] at hm
    rw [← hrest, Bool.and_eq_true] at hm
    obtain ⟨hall, hmatch⟩ := hm
    cases html with
    | text s =>
      dsimp only at hmatch
      have hnil : rest = [] := by
        cases rest with
        | nil => rfl
        | cons a b => simp [List.isEmpty] at hmatch
      refine ⟨.mk tag (setAttr attrs1 "_text" s) [], ?_, rfl⟩
      simp only [blendNode]
      rw [hvp]
      dsimp only
      rw [find?_none_of_all_slash hall]
      dsimp only
      rw [hnil]
      rfl
    | element t nattrs cs =>
      dsimp only at hmatch
      obtain ⟨ns, h1, h2⟩ := blendChildren_mirror (blendNode m) (mirrorNode m)
        (fun d c tg x hs => ih d c tg x hs) cs rest [] xpath hmatch
      refine ⟨.mk tag
        (nattrs.foldl (fun acc nv => setAttr acc (renameNative nv.1) nv.2) attrs1) ns,
        ?_, ?_⟩
      · simp only [blendNode]
        rw [hvp]
        dsimp only
        rw [find?_none_of_all_slash hall]
        dsimp only
        rw [h1]
        rfl
      · simp only [OutNode.size, HtmlNode.alignUnder, h2]
    | document cs =>
      dsimp only at hmatch
      obtain ⟨ns, h1, h2⟩ := blendChildren_mirror (blendNode m) (mirrorNode m)
        (fun d c tg x hs => ih d c tg x hs) cs rest [] xpath hmatch
      refine ⟨.mk tag attrs1 ns, ?_, ?_⟩
      · simp only [blendNode]
        rw [hvp]
        dsimp only
        rw [find?_none_of_all_slash hall]
        dsimp only
        rw [h1]
        rfl
      · simp only [OutNode.size, HtmlNode.alignUnder, h2]
    | comment s => dsimp only at hmatch; simp at hmatch
    | directive s => dsimp only at hmatch; simp at hmatch

/-- C2 witness inputs are exercised concretely below (the interior Comment
is skipped because a JSON entry remains when it is reached). -/
theorem c2_mirror_witness :
    mirrorNode 4
      [("timestamp", .scalar "1"),
       ("/div[1]", .obj [("/text()", .obj [("fontSize", .scalar "10")])])]
      (.document [.comment "lead", .element "div" [] [.text "hi"]]) = true ∧
    ∃ out, blendNode 4
        [("timestamp", .scalar "1"),
         ("/div[1]", .obj [("/text()", .obj [("fontSize", .scalar "10")])])]
        (.document [.comment "lead", .element "div" [] [.text "hi"]]) "#root" "/"
          = some (out, []) ∧
      out.size = 1 + HtmlNode.alignUnder
        (.document [.comment "lead", .element "div" [] [.text "hi"]]) :=
  ⟨by decide,
   c2_mirror 4
     [("timestamp", .scalar "1"),
      ("/div[1]", .obj [("/text()", .obj [("fontSize", .scalar "10")])])]
     (.document [.comment "lead", .element "div" [] [.text "hi"]]) "#root" "/" (by decide)⟩
